import Mathlib

/-!
Shallow embedding of the framed echo server (`echo_server.h` / the framed
`echo_server.cpp` translation unit, together with its `common.h`).

The server keeps two registries keyed by client file descriptor:
`client_buffers : fd → unique_ptr<char[]>` and `fd_mutexes : fd → mutex`.
`handle_client_data` takes the per-fd lock, takes the buffer out of the
registry, reads a 12-byte header (magic, data_len, msg_id, all network
byte order), validates it, reads `data_len` payload bytes, echoes header
then payload, drains leftover input, and finally returns the buffer and
re-arms the one-shot epoll registration.

Sockets are modelled at syscall granularity: a socket is a list of pending
bytes (already in the kernel buffer) plus a list of network events; each
`read` call either absorbs pending bytes (up to the requested count) or
consumes one event (data arrival, EAGAIN, EOF as an empty data chunk, or a
hard error).  Running out of events while a read loop still needs bytes
models the loop's wall-clock timeout (the retry budget is exhausted).
Writes are driven by a schedule of kernel responses: accept up to `n`
bytes, EAGAIN, or a hard error.
-/

/-- `MAGIC_NUMBER` from common.h: 0x1A2B3C4D. -/
def MAGIC_NUMBER : Nat := 0x1A2B3C4D

/-- `BUFFER_SIZE` from the framed server's common.h: 4096 bytes. -/
def BUFFER_SIZE : Nat := 4096

/-- Decode 4 bytes in network byte order (big endian) into a value, the
effect of `ntohl` applied to a `uint32_t` whose in-memory bytes are the
received wire bytes. -/
def be32 (bs : List Nat) : Nat :=
  (bs.take 4).foldl (fun acc b => acc * 256 + b) 0

/-- Magic field of a 12-byte header: bytes 0..3. -/
def magicOf (hdr : List Nat) : Nat := be32 (hdr.take 4)

/-- data_len field of a 12-byte header: bytes 4..7. -/
def dataLenOf (hdr : List Nat) : Nat := be32 ((hdr.drop 4).take 4)

/-- msg_id field of a 12-byte header: bytes 8..11. -/
def msgIdOf (hdr : List Nat) : Nat := be32 ((hdr.drop 8).take 4)

/-- Big-endian encoding of a 32-bit value, for building concrete headers. -/
def enc32 (v : Nat) : List Nat :=
  [v / 2 ^ 24 % 256, v / 2 ^ 16 % 256, v / 2 ^ 8 % 256, v % 256]

/-- Association-list lookup keyed by fd, mirroring
`client_buffers.find(client_fd)`. -/
def lookupFd {α : Type} (k : Nat) : List (Nat × α) → Option α
  | [] => none
  | (a, v) :: r => if a = k then some v else lookupFd k r

/-- Remove every entry for fd `k`, mirroring `client_buffers.erase(...)`. -/
def eraseFd {α : Type} (k : Nat) : List (Nat × α) → List (Nat × α)
  | [] => []
  | (a, v) :: r => if a = k then eraseFd k r else (a, v) :: eraseFd k r

/-- The mutable per-server registries: `client_buffers` (fd → buffer
contents) and `fd_mutexes` (the set of fds that own a mutex entry). -/
structure ServerSt where
  client_buffers : List (Nat × List Nat)
  fd_mutexes : List Nat
deriving DecidableEq

/-- `EchoServer::close_client`: closes the fd and erases both registry
entries (the caller separately records the fd as closed). -/
def close_client (fd : Nat) (st : ServerSt) : ServerSt :=
  ⟨eraseFd fd st.client_buffers, st.fd_mutexes.filter (fun g => g ≠ fd)⟩

/-- One network event seen by a `read` call: a chunk of bytes arriving
(`data []` is a zero-length read, i.e. the peer closed), EAGAIN, or a hard
read error. -/
inductive NetEvt where
  | data (bs : List Nat)
  | wouldBlock
  | rerr
deriving DecidableEq

/-- How a read loop ended early: retry budget exhausted (timeout), peer
close (zero-length read), or a non-retryable `read` failure. -/
inductive ReadErr where
  | timeout
  | eof
  | readFail
deriving DecidableEq

/-- Result of an accumulate-until-complete read loop. -/
inductive ReadRes where
  | ok (bs : List Nat)
  | fail (e : ReadErr)
deriving DecidableEq

/-- A read loop's outcome: result, bytes still pending in the kernel
buffer, remaining events, and one `(offset, requested)` record per `read`
syscall issued (offset into the accumulator, count requested). -/
structure RRes where
  res : ReadRes
  pending : List Nat
  evts : List NetEvt
  recs : List (Nat × Nat)
deriving DecidableEq

/-- Event-consuming core of the read loops of `handle_client_data`
(header: `while (header_read < header_total)`, body:
`while (data_read < data_len)`).  Invoked with an empty kernel buffer;
each step consumes one event = one `read` syscall (after a short sleep in
the EAGAIN case).  Must be called with `acc.length < n`. -/
def readEvts (n : Nat) (acc : List Nat) : List NetEvt → RRes
  | [] => ⟨.fail .timeout, [], [], [(acc.length, n - acc.length)]⟩
  | .wouldBlock :: r =>
      let x := readEvts n acc r
      ⟨x.res, x.pending, x.evts, (acc.length, n - acc.length) :: x.recs⟩
  | .rerr :: r => ⟨.fail .readFail, [], r, [(acc.length, n - acc.length)]⟩
  | .data bs :: r =>
      if bs.isEmpty then ⟨.fail .eof, [], r, [(acc.length, n - acc.length)]⟩
      else
        let need := n - acc.length
        if need ≤ bs.length then
          ⟨.ok (acc ++ bs.take need), bs.drop need, r, [(acc.length, need)]⟩
        else
          let x := readEvts n (acc ++ bs) r
          ⟨x.res, x.pending, x.evts, (acc.length, need) :: x.recs⟩

/-- Read exactly `n` bytes, taking from the kernel buffer first (one
syscall absorbs up to the requested count) and then consuming events. -/
def readExact (n : Nat) (pending : List Nat) (evts : List NetEvt) : RRes :=
  if n = 0 then ⟨.ok [], pending, evts, []⟩
  else if n ≤ pending.length then
    ⟨.ok (pending.take n), pending.drop n, evts, [(0, n)]⟩
  else if pending.isEmpty then readEvts n [] evts
  else
    let x := readEvts n pending evts
    ⟨x.res, x.pending, x.evts, (0, n) :: x.recs⟩

/-- One kernel response to a `write` call: accept up to `n` bytes, EAGAIN,
or a hard write error. -/
inductive WriteEvt where
  | acc (n : Nat)
  | wblk
  | werr
deriving DecidableEq

/-- How a write loop ended: all bytes written, a hard `write` failure, or
the response schedule ran out while the loop would retry forever (the echo
loops have no timeout). -/
inductive WStatus where
  | ok
  | wfail
  | starved
deriving DecidableEq

/-- Write-loop outcome: the bytes actually put on the wire, the remaining
schedule, and the status. -/
structure WRes where
  out : List Nat
  ws : List WriteEvt
  status : WStatus
deriving DecidableEq

/-- The header echo loop: `write(client_fd, &header, header_total -
total_written)`.  Faithful to the source: the base pointer is `&header`
and is NOT advanced by `total_written`, so each call puts the FIRST
`header_total - total_written` header bytes on the wire. -/
def write_header_loop (hdr : List Nat) (written : Nat) : List WriteEvt → WRes
  | [] => if 12 ≤ written then ⟨[], [], .ok⟩ else ⟨[], [], .starved⟩
  | .wblk :: r =>
      if 12 ≤ written then ⟨[], .wblk :: r, .ok⟩
      else write_header_loop hdr written r
  | .werr :: r =>
      if 12 ≤ written then ⟨[], .werr :: r, .ok⟩ else ⟨[], r, .wfail⟩
  | .acc n :: r =>
      if 12 ≤ written then ⟨[], .acc n :: r, .ok⟩
      else
        let k := min n (12 - written)
        let x := write_header_loop hdr (written + k) r
        ⟨hdr.take k ++ x.out, x.ws, x.status⟩

/-- The payload echo loop: `write(client_fd, buffer.get() + total_written,
data_len - total_written)` — here the pointer IS advanced. -/
def write_data_loop (buf : List Nat) (total written : Nat) : List WriteEvt → WRes
  | [] => if total ≤ written then ⟨[], [], .ok⟩ else ⟨[], [], .starved⟩
  | .wblk :: r =>
      if total ≤ written then ⟨[], .wblk :: r, .ok⟩
      else write_data_loop buf total written r
  | .werr :: r =>
      if total ≤ written then ⟨[], .werr :: r, .ok⟩ else ⟨[], r, .wfail⟩
  | .acc n :: r =>
      if total ≤ written then ⟨[], .acc n :: r, .ok⟩
      else
        let k := min n (total - written)
        let x := write_data_loop buf total (written + k) r
        ⟨(buf.drop written).take k ++ x.out, x.ws, x.status⟩

/-- Event-consuming part of the leftover-drain loop
(`while (true) { leftover = read(fd, dummy, 4096); if (leftover <= 0)
break; }`): discard data chunks until a read returns `<= 0`. -/
def drainEvts : List NetEvt → List Nat × List NetEvt
  | [] => ([], [])
  | .wouldBlock :: r => ([], r)
  | .rerr :: r => ([], r)
  | .data bs :: r =>
      if bs.isEmpty then ([], r)
      else
        let x := drainEvts r
        (bs ++ x.1, x.2)

/-- The full drain step: kernel-buffered bytes are read and discarded
first, then events are consumed until a read returns `<= 0`. -/
def drain (pending : List Nat) (evts : List NetEvt) : List Nat × List NetEvt :=
  if pending.isEmpty then drainEvts evts
  else
    let x := drainEvts evts
    (pending ++ x.1, x.2)

/-- Which exit of `handle_client_data` closed the connection. -/
inductive CloseReason where
  | noBuffer
  | hdrTimeout
  | hdrEof
  | hdrErr
  | badMagic
  | badLen
  | bodyTimeout
  | bodyEof
  | bodyErr
  | writeHdrErr
  | writeDataErr
deriving DecidableEq

/-- How a `handle_client_data` invocation ended: connection torn down,
buffer returned and one-shot interest re-armed (carrying the processed
msg_id), or stuck forever in an untimed echo-write retry loop. -/
inductive HOutcome where
  | closed (r : CloseReason)
  | rearmed (msgId : Nat)
  | diverged
deriving DecidableEq

/-- Observable result of one `handle_client_data` invocation. -/
structure HRes where
  out : List Nat
  st : ServerSt
  pending : List Nat
  evts : List NetEvt
  ws : List WriteEvt
  closedFds : List Nat
  errLogs : Nat
  enteredBody : Bool
  hdrRecs : List (Nat × Nat)
  bodyRecs : List (Nat × Nat)
  drained : List Nat
  outcome : HOutcome
deriving DecidableEq

/-- Build the result of a Close exit: `close_client` runs (fd closed, both
registry entries erased) and the taken buffer is dropped, not returned. -/
def mkClosed (fd : Nat) (st : ServerSt) (out : List Nat) (pending : List Nat)
    (evts : List NetEvt) (ws : List WriteEvt) (errL : Nat) (entered : Bool)
    (hrecs brecs : List (Nat × Nat)) (r : CloseReason) : HRes :=
  ⟨out, close_client fd st, pending, evts, ws, [fd], errL, entered, hrecs,
    brecs, [], .closed r⟩

/-- `log_error` count on each failed header read: timeout and hard errors
are logged as errors, a peer close is logged at info level only. -/
def readErrLogs : ReadErr → Nat
  | .timeout => 1
  | .readFail => 1
  | .eof => 0

/-- Close reason for a failed header read. -/
def hdrReason : ReadErr → CloseReason
  | .timeout => .hdrTimeout
  | .eof => .hdrEof
  | .readFail => .hdrErr

/-- Close reason for a failed body read. -/
def bodyReason : ReadErr → CloseReason
  | .timeout => .bodyTimeout
  | .eof => .bodyEof
  | .readFail => .bodyErr

/-- Registry effect of `EchoServer::get_fd_mutex`: `fd_mutexes[client_fd]`
default-constructs a mutex entry for the fd if none exists yet. -/
def get_fd_mutex_reg (fd : Nat) (m : List Nat) : List Nat :=
  if m.contains fd then m else fd :: m

/-- `EchoServer::handle_client_data`, translated control-flow-faithfully:
take the per-fd mutex (creating its map entry if absent), take the buffer
out of `client_buffers` (abort via `close_client` plus an error log if
missing), zero it, read the 12-byte header, validate magic and
`data_len`, read the body, echo header then body, drain leftovers, then
return the buffer and re-arm. -/
def handle_client_data (fd : Nat) (st : ServerSt) (pending : List Nat)
    (evts : List NetEvt) (ws : List WriteEvt) : HRes :=
  let mtx := get_fd_mutex_reg fd st.fd_mutexes
  match lookupFd fd st.client_buffers with
  | none =>
      mkClosed fd ⟨st.client_buffers, mtx⟩ [] pending evts ws 1 false [] []
        .noBuffer
  | some _ =>
      let st1 : ServerSt := ⟨eraseFd fd st.client_buffers, mtx⟩
      let r1 := readExact 12 pending evts
      match r1.res with
      | .fail e =>
          mkClosed fd st1 [] r1.pending r1.evts ws (readErrLogs e) false
            r1.recs [] (hdrReason e)
      | .ok hdr =>
          if magicOf hdr ≠ MAGIC_NUMBER then
            mkClosed fd st1 [] r1.pending r1.evts ws 1 false r1.recs []
              .badMagic
          else
            let dataLen := dataLenOf hdr
            if dataLen = 0 ∨ BUFFER_SIZE < dataLen then
              mkClosed fd st1 [] r1.pending r1.evts ws 1 false r1.recs []
                .badLen
            else
              let r2 := readExact dataLen r1.pending r1.evts
              match r2.res with
              | .fail e =>
                  mkClosed fd st1 [] r2.pending r2.evts ws (readErrLogs e)
                    true r1.recs r2.recs (bodyReason e)
              | .ok payload =>
                  let w1 := write_header_loop hdr 0 ws
                  match w1.status with
                  | .wfail =>
                      mkClosed fd st1 w1.out r2.pending r2.evts w1.ws 1 true
                        r1.recs r2.recs .writeHdrErr
                  | .starved =>
                      ⟨w1.out, st1, r2.pending, r2.evts, [], [], 0, true,
                        r1.recs, r2.recs, [], .diverged⟩
                  | .ok =>
                      let w2 := write_data_loop payload dataLen 0 w1.ws
                      match w2.status with
                      | .wfail =>
                          mkClosed fd st1 (w1.out ++ w2.out) r2.pending
                            r2.evts w2.ws 1 true r1.recs r2.recs .writeDataErr
                      | .starved =>
                          ⟨w1.out ++ w2.out, st1, r2.pending, r2.evts, [],
                            [], 0, true, r1.recs, r2.recs, [], .diverged⟩
                      | .ok =>
                          let d := drain r2.pending r2.evts
                          ⟨w1.out ++ w2.out,
                            ⟨(fd, payload ++
                                List.replicate (BUFFER_SIZE - dataLen) 0) ::
                              st1.client_buffers, st1.fd_mutexes⟩,
                            [], d.2, w2.ws, [], 0, true, r1.recs, r2.recs,
                            d.1, .rearmed (msgIdOf hdr)⟩

/-! ## Acceptor: the `while (true)` accept loop in `EchoServer::start` -/

/-- One iteration's inputs to the accept loop: a new connection (with the
outcomes of its `set_nonblocking` call and its `epoll_ctl` ADD), accept
returning EAGAIN/EWOULDBLOCK (queue drained), or another accept error. -/
inductive AcceptEvt where
  | conn (fd : Nat) (nbOk : Bool) (epollOk : Bool)
  | noMore
  | afail
deriving DecidableEq

/-- Result of draining the accept queue on one listening-socket readiness
notification. -/
structure ARes where
  st : ServerSt
  closed : List Nat
  errLogs : Nat
deriving DecidableEq

/-- The accept loop of `EchoServer::start`: accept until EAGAIN (or
another accept error, logged) breaks the batch; per candidate, a
`set_nonblocking` failure closes the socket and continues; otherwise a
`BUFFER_SIZE` zeroed buffer is registered, and an `epoll_ctl` failure then
runs `close_client` (closing the fd and erasing the fresh entry) and
continues. -/
def accept_loop (st : ServerSt) : List AcceptEvt → ARes
  | [] => ⟨st, [], 0⟩
  | .noMore :: _ => ⟨st, [], 0⟩
  | .afail :: _ => ⟨st, [], 1⟩
  | .conn fd nbOk epollOk :: r =>
      if nbOk = false then
        let x := accept_loop st r
        ⟨x.st, fd :: x.closed, x.errLogs + 1⟩
      else
        let st1 : ServerSt :=
          ⟨(fd, List.replicate BUFFER_SIZE 0) :: st.client_buffers,
            st.fd_mutexes⟩
        if epollOk = false then
          let x := accept_loop (close_client fd st1) r
          ⟨x.st, fd :: x.closed, x.errLogs + 1⟩
        else accept_loop st1 r

/-- The candidates processed in one batch: the connections before the
first terminating accept result, each with its overall success flag. -/
def batch_cands : List AcceptEvt → List (Nat × Bool)
  | .conn fd nbOk epollOk :: r => (fd, nbOk && epollOk) :: batch_cands r
  | _ => []

/-- Whether the batch ended benignly (queue drained or event list
exhausted) rather than by an accept error. -/
def batch_ends_ok : List AcceptEvt → Bool
  | [] => true
  | .noMore :: _ => true
  | .afail :: _ => false
  | .conn _ _ _ :: r => batch_ends_ok r

/-- Number of discarded candidates in the batch. -/
def batch_failures (evts : List AcceptEvt) : Nat :=
  ((batch_cands evts).filter (fun c => c.2 = false)).length

/-! ## Reactor dispatch -/

/-- `EPOLLIN` bit. -/
def EPOLLIN : Nat := 1

/-- `EPOLLERR` bit. -/
def EPOLLERR : Nat := 8

/-- `EPOLLHUP` bit. -/
def EPOLLHUP : Nat := 16

/-- What the event loop does with one ready `epoll_event`. -/
inductive Dispatch where
  | acceptBatch
  | handleData (fd : Nat)
  | teardown (fd : Nat)
  | skip
deriving DecidableEq

/-- Dispatch logic of the threaded framed server's event loop
(`EchoServer::start`): the listening fd goes to the accept loop and EVERY
other ready fd is handed to `handle_client_data` (on a detached thread) —
the event mask is never examined. -/
def dispatch_start (server_fd fd : Nat) (_mask : Nat) : Dispatch :=
  if fd = server_fd then .acceptBatch else .handleData fd

/-- Dispatch logic of the plain server's `EchoServer::run` loop: listening
fd → accept; else a mask with `EPOLLIN` → `handle_client_data`; else a
mask with `EPOLLERR` or `EPOLLHUP` → `close_client`; else nothing. -/
def dispatch_run (listen_fd fd : Nat) (mask : Nat) : Dispatch :=
  if fd = listen_fd then .acceptBatch
  else if mask &&& EPOLLIN ≠ 0 then .handleData fd
  else if mask &&& (EPOLLERR ||| EPOLLHUP) ≠ 0 then .teardown fd
  else .skip

/-! ## Per-connection serialization: two dispatches for one fd

`handle_client_data` wraps its whole body in
`std::lock_guard<std::mutex> fd_lock(get_fd_mutex(client_fd))`.  We model
two concurrently scheduled invocations for the same fd as a two-thread
transition system: each thread acquires the per-fd mutex before its first
buffer access and releases it when the handler returns. -/

/-- The phases a handler invocation passes through while holding the
per-fd lock (the body of `handle_client_data`, lines 74-246). -/
inductive HandlerPhase where
  | takeBuffer
  | readHeader
  | readBody
  | echoWrite
  | drainLeftover
  | rearmEvent
deriving DecidableEq

/-- Program order of the handler body. -/
def nextPhase : HandlerPhase → Option HandlerPhase
  | .takeBuffer => some .readHeader
  | .readHeader => some .readBody
  | .readBody => some .echoWrite
  | .echoWrite => some .drainLeftover
  | .drainLeftover => some .rearmEvent
  | .rearmEvent => none

/-- Control point of one dispatched invocation: before the
`lock_guard` is constructed, inside the body (holding the lock), or after
return. -/
inductive DispPc where
  | beforeLock
  | inCrit (ph : HandlerPhase)
  | released
deriving DecidableEq

/-- Whether a control point is inside the handler body (touching the
connection's buffer is only possible here). -/
def DispPc.isInCrit : DispPc → Bool
  | .inCrit _ => true
  | _ => false

/-- Joint state of the per-fd mutex and two dispatched invocations
(thread `false` and thread `true`) for the same fd. -/
structure TwoDispatch where
  lockHolder : Option Bool
  pcA : DispPc
  pcB : DispPc
deriving DecidableEq

/-- Interleaving semantics: a thread may construct the `lock_guard` only
when the mutex is free; while inside it advances through the body; the
`lock_guard` destructor releases the mutex when the handler returns. -/
inductive LockStep : TwoDispatch → TwoDispatch → Prop where
  | acquireA (s : TwoDispatch) : s.lockHolder = none → s.pcA = .beforeLock →
      LockStep s ⟨some false, .inCrit .takeBuffer, s.pcB⟩
  | acquireB (s : TwoDispatch) : s.lockHolder = none → s.pcB = .beforeLock →
      LockStep s ⟨some true, s.pcA, .inCrit .takeBuffer⟩
  | workA (s : TwoDispatch) (ph ph' : HandlerPhase) : s.pcA = .inCrit ph →
      nextPhase ph = some ph' → LockStep s ⟨s.lockHolder, .inCrit ph', s.pcB⟩
  | workB (s : TwoDispatch) (ph ph' : HandlerPhase) : s.pcB = .inCrit ph →
      nextPhase ph = some ph' → LockStep s ⟨s.lockHolder, s.pcA, .inCrit ph'⟩
  | releaseA (s : TwoDispatch) : s.pcA = .inCrit .rearmEvent →
      LockStep s ⟨none, .released, s.pcB⟩
  | releaseB (s : TwoDispatch) : s.pcB = .inCrit .rearmEvent →
      LockStep s ⟨none, s.pcA, .released⟩

/-- Both dispatches start before the lock, mutex free. -/
def initTwoDispatch : TwoDispatch := ⟨none, .beforeLock, .beforeLock⟩

/-- States reachable by interleaving the two dispatches. -/
def ReachableTD (s : TwoDispatch) : Prop :=
  Relation.ReflTransGen LockStep initTwoDispatch s

/-! ## Basic lemmas -/

theorem take_append_len {α : Type} {h : List α} {t : List α} {n : Nat}
    (hl : h.length = n) : (h ++ t).take n = h := by
  subst hl; simp

theorem drop_append_len {α : Type} {h : List α} {t : List α} {n : Nat}
    (hl : h.length = n) : (h ++ t).drop n = t := by
  subst hl; simp

theorem lookupFd_cons_self {α : Type} {k : Nat} {v : α} {l : List (Nat × α)} :
    lookupFd k ((k, v) :: l) = some v := by
  simp [lookupFd]

theorem lookupFd_eraseFd_self {α : Type} {k : Nat} (l : List (Nat × α)) :
    lookupFd k (eraseFd k l) = none := by
  induction l with
  | nil => rfl
  | cons hd tl ih =>
      obtain ⟨a, v⟩ := hd
      by_cases h : a = k
      · simp [eraseFd, h, ih]
      · simp [eraseFd, h, lookupFd, ih]

theorem lookupFd_eraseFd_ne {α : Type} {g k : Nat} (hgk : g ≠ k)
    (l : List (Nat × α)) : lookupFd g (eraseFd k l) = lookupFd g l := by
  induction l with
  | nil => rfl
  | cons hd tl ih =>
      obtain ⟨a, v⟩ := hd
      by_cases h : a = k
      · have hkg : ¬ k = g := fun hc => hgk hc.symm
        have hag : ¬ a = g := by rw [h]; exact hkg
        simp [eraseFd, h, lookupFd, hag, hkg, ih]
      · simp [eraseFd, h, lookupFd, ih]

theorem not_mem_filter_ne_self {l : List Nat} {fd : Nat} :
    fd ∉ l.filter (fun g => g ≠ fd) := by
  intro h
  have := List.of_mem_filter h
  simp at this

theorem mem_filter_ne_of_ne {l : List Nat} {g fd : Nat} (h : g ≠ fd) :
    g ∈ l.filter (fun x => x ≠ fd) ↔ g ∈ l := by
  constructor
  · exact fun hm => List.mem_of_mem_filter hm
  · intro hm
    exact List.mem_filter.2 ⟨hm, by simp [h]⟩

/-! ## Read-loop lemmas -/

theorem readExact_pending {n : Nat} {pending : List Nat} {evts : List NetEvt}
    (h0 : n ≠ 0) (hlen : n ≤ pending.length) :
    readExact n pending evts =
      ⟨.ok (pending.take n), pending.drop n, evts, [(0, n)]⟩ := by
  simp [readExact, h0, hlen]

theorem readExact_empty {n : Nat} (h0 : n ≠ 0) :
    readExact n [] [] = ⟨.fail .timeout, [], [], [(0, n)]⟩ := by
  simp [readExact, h0, readEvts]

theorem readEvts_recs_bounds {n : Nat} :
    ∀ (evts : List NetEvt) (acc : List Nat), acc.length < n →
    ∀ pr ∈ (readEvts n acc evts).recs, pr.1 < n ∧ pr.1 + pr.2 = n := by
  intro evts
  induction evts with
  | nil =>
      intro acc hlt pr hpr
      simp [readEvts] at hpr
      subst hpr
      refine ⟨hlt, ?_⟩
      show acc.length + (n - acc.length) = n
      omega
  | cons e r ih =>
      intro acc hlt pr hpr
      match e with
      | .wouldBlock =>
          simp [readEvts] at hpr
          rcases hpr with h | h
          · subst h
            refine ⟨hlt, ?_⟩
            show acc.length + (n - acc.length) = n
            omega
          · exact ih acc hlt pr h
      | .rerr =>
          simp [readEvts] at hpr
          subst hpr
          refine ⟨hlt, ?_⟩
          show acc.length + (n - acc.length) = n
          omega
      | .data bs =>
          by_cases hb : bs.isEmpty
          · simp [readEvts, hb] at hpr
            subst hpr
            refine ⟨hlt, ?_⟩
            show acc.length + (n - acc.length) = n
            omega
          · by_cases hneed : n - acc.length ≤ bs.length
            · simp [readEvts, hb, hneed] at hpr
              subst hpr
              refine ⟨hlt, ?_⟩
              show acc.length + (n - acc.length) = n
              omega
            · simp [readEvts, hb, hneed] at hpr
              rcases hpr with h | h
              · subst h
                refine ⟨hlt, ?_⟩
                show acc.length + (n - acc.length) = n
                omega
              · have hlt2 : (acc ++ bs).length < n := by
                  simp
                  omega
                exact ih (acc ++ bs) hlt2 pr h

theorem readExact_recs_bounds {n : Nat} {pending : List Nat}
    {evts : List NetEvt} :
    ∀ pr ∈ (readExact n pending evts).recs, pr.1 < n ∧ pr.1 + pr.2 = n := by
  intro pr hpr
  by_cases h0 : n = 0
  · subst h0; simp [readExact] at hpr
  · by_cases hlen : n ≤ pending.length
    · simp [readExact, h0, hlen] at hpr
      subst hpr
      constructor
      · omega
      · simp
    · by_cases hpe : pending.isEmpty
      · have : pending = [] := by
          cases pending; rfl; simp at hpe
        subst this
        simp [readExact, h0, hlen, List.isEmpty] at hpr
        exact readEvts_recs_bounds evts [] (by simp; omega) pr hpr
      · simp [readExact, h0, hlen, hpe] at hpr
        rcases hpr with h | h
        · subst h; constructor; omega; simp
        · exact readEvts_recs_bounds evts pending (by omega) pr h

/-! ## Write-loop lemmas -/

theorem write_header_loop_done {hdr : List Nat} {w : Nat}
    (h : 12 ≤ w) (ws : List WriteEvt) :
    write_header_loop hdr w ws = ⟨[], ws, .ok⟩ := by
  cases ws with
  | nil => simp [write_header_loop, h]
  | cons e r => cases e <;> simp [write_header_loop, h]

theorem write_header_loop_full {hdr : List Nat} {n : Nat}
    (h12 : hdr.length = 12) (hn : 12 ≤ n) (r : List WriteEvt) :
    write_header_loop hdr 0 (.acc n :: r) = ⟨hdr, r, .ok⟩ := by
  have hk : min n (12 - 0) = 12 := by omega
  have hdone : write_header_loop hdr (0 + 12) r = ⟨[], r, .ok⟩ :=
    write_header_loop_done (by omega) r
  simp only [write_header_loop, hk, hdone]
  simp [List.take_of_length_le (le_of_eq h12)]

theorem write_data_loop_done {buf : List Nat} {t w : Nat}
    (h : t ≤ w) (ws : List WriteEvt) :
    write_data_loop buf t w ws = ⟨[], ws, .ok⟩ := by
  cases ws with
  | nil => simp [write_data_loop, h]
  | cons e r => cases e <;> simp [write_data_loop, h]

theorem write_data_loop_full {buf : List Nat} {n : Nat}
    (ht : 0 < buf.length) (hn : buf.length ≤ n) (r : List WriteEvt) :
    write_data_loop buf buf.length 0 (.acc n :: r) = ⟨buf, r, .ok⟩ := by
  have hnot : ¬ buf.length ≤ 0 := by omega
  have hk : min n (buf.length - 0) = buf.length := by omega
  have hdone : write_data_loop buf buf.length (0 + buf.length) r =
      ⟨[], r, .ok⟩ := write_data_loop_done (by omega) r
  simp only [write_data_loop, hnot, hk, hdone, if_false]
  simp

/-! ## Close-path registry lemmas -/

theorem get_fd_mutex_reg_cases (fd : Nat) (m : List Nat) :
    get_fd_mutex_reg fd m = m ∨ get_fd_mutex_reg fd m = fd :: m := by
  unfold get_fd_mutex_reg
  split
  · exact Or.inl rfl
  · exact Or.inr rfl

theorem mem_get_fd_mutex_reg_iff {g fd : Nat} {m : List Nat} (h : g ≠ fd) :
    g ∈ get_fd_mutex_reg fd m ↔ g ∈ m := by
  unfold get_fd_mutex_reg
  split
  · exact Iff.rfl
  · simp [h]

theorem close_client_props (fd : Nat) (st : ServerSt)
    (bufs : List (Nat × List Nat))
    (hbufs : bufs = st.client_buffers ∨ bufs = eraseFd fd st.client_buffers) :
    lookupFd fd (close_client fd
        ⟨bufs, get_fd_mutex_reg fd st.fd_mutexes⟩).client_buffers = none ∧
    fd ∉ (close_client fd
        ⟨bufs, get_fd_mutex_reg fd st.fd_mutexes⟩).fd_mutexes ∧
    (∀ g, g ≠ fd →
      lookupFd g (close_client fd
          ⟨bufs, get_fd_mutex_reg fd st.fd_mutexes⟩).client_buffers =
        lookupFd g st.client_buffers) ∧
    (∀ g, g ≠ fd →
      (g ∈ (close_client fd
          ⟨bufs, get_fd_mutex_reg fd st.fd_mutexes⟩).fd_mutexes ↔
        g ∈ st.fd_mutexes)) := by
  refine ⟨lookupFd_eraseFd_self bufs, not_mem_filter_ne_self, ?_, ?_⟩
  · intro g hg
    rw [show (close_client fd
        ⟨bufs, get_fd_mutex_reg fd st.fd_mutexes⟩).client_buffers =
        eraseFd fd bufs from rfl]
    rw [lookupFd_eraseFd_ne hg]
    rcases hbufs with hb | hb
    · rw [hb]
    · rw [hb]
      exact lookupFd_eraseFd_ne hg st.client_buffers
  · intro g hg
    rw [show (close_client fd
        ⟨bufs, get_fd_mutex_reg fd st.fd_mutexes⟩).fd_mutexes =
        (get_fd_mutex_reg fd st.fd_mutexes).filter (fun x => x ≠ fd) from rfl]
    rw [mem_filter_ne_of_ne hg]
    exact mem_get_fd_mutex_reg_iff hg

/-! ## The successful processing cycle -/

theorem handle_valid_frame (fd : Nat) (st : ServerSt)
    (buf h p pend2 : List Nat) (evts : List NetEvt) (n1 n2 : Nat)
    (ws2 : List WriteEvt)
    (hbuf : lookupFd fd st.client_buffers = some buf)
    (hh : h.length = 12)
    (hmagic : magicOf h = MAGIC_NUMBER)
    (hlen : dataLenOf h = p.length)
    (hp0 : p ≠ []) (hpB : p.length ≤ BUFFER_SIZE)
    (hn1 : 12 ≤ n1) (hn2 : p.length ≤ n2) :
    handle_client_data fd st (h ++ p ++ pend2) evts
        (.acc n1 :: .acc n2 :: ws2) =
      ⟨h ++ p,
       ⟨(fd, p ++ List.replicate (BUFFER_SIZE - p.length) 0) ::
          eraseFd fd st.client_buffers,
        get_fd_mutex_reg fd st.fd_mutexes⟩,
       [], (drain pend2 evts).2, ws2, [], 0, true,
       [(0, 12)], [(0, p.length)], (drain pend2 evts).1,
       .rearmed (msgIdOf h)⟩ := by
  have hp0' : p.length ≠ 0 := by
    cases p
    · exact absurd rfl hp0
    · simp
  have hpen : 12 ≤ (h ++ p ++ pend2).length := by simp [hh]
  have hr1 : readExact 12 (h ++ p ++ pend2) evts =
      ⟨.ok h, p ++ pend2, evts, [(0, 12)]⟩ := by
    rw [readExact_pending (by omega) hpen, List.append_assoc,
      take_append_len hh, drop_append_len hh]
  have hr2 : readExact p.length (p ++ pend2) evts =
      ⟨.ok p, pend2, evts, [(0, p.length)]⟩ := by
    rw [readExact_pending hp0' (by simp),
      take_append_len rfl, drop_append_len rfl]
  have hmne : ¬ (magicOf h ≠ MAGIC_NUMBER) := by simp [hmagic]
  have hlne : ¬ (dataLenOf h = 0 ∨ BUFFER_SIZE < dataLenOf h) := by
    rw [hlen]
    push_neg
    exact ⟨hp0', hpB⟩
  have hw1 : write_header_loop h 0 (.acc n1 :: .acc n2 :: ws2) =
      ⟨h, .acc n2 :: ws2, .ok⟩ := write_header_loop_full hh hn1 _
  have hw2 : write_data_loop p p.length 0 (.acc n2 :: ws2) =
      ⟨p, ws2, .ok⟩ := write_data_loop_full (by omega) hn2 _
  have hlne2 : ¬ (p.length = 0 ∨ BUFFER_SIZE < p.length) := by
    push_neg
    exact ⟨hp0', hpB⟩
  simp only [handle_client_data, hbuf, hr1]
  simp only [hmne, if_false, hlen, hr2, hw1, hw2]
  rw [if_neg hlne2]

/-- With no buffered bytes and no arriving events the header read times
out and the connection is closed. -/
theorem handle_header_timeout (fd : Nat) (st : ServerSt) (buf : List Nat)
    (ws : List WriteEvt)
    (hbuf : lookupFd fd st.client_buffers = some buf) :
    handle_client_data fd st [] [] ws =
      mkClosed fd ⟨eraseFd fd st.client_buffers,
          get_fd_mutex_reg fd st.fd_mutexes⟩ [] [] [] ws 1 false [(0, 12)] []
        .hdrTimeout := by
  have hr : readExact 12 [] [] = ⟨.fail .timeout, [], [], [(0, 12)]⟩ :=
    readExact_empty (by omega)
  simp only [handle_client_data, hbuf, hr]
  rfl

/-- Every exit of `handle_client_data` is a Close via `close_client` (with
the buffer either still registered, in the missing-buffer path, or already
taken out), a divergence inside an untimed echo-write retry loop, or a
successful re-arm. -/
theorem handle_st_shape (fd : Nat) (st : ServerSt) (pending : List Nat)
    (evts : List NetEvt) (ws : List WriteEvt) :
    ((handle_client_data fd st pending evts ws).st =
        close_client fd ⟨st.client_buffers, get_fd_mutex_reg fd st.fd_mutexes⟩ ∧
      (handle_client_data fd st pending evts ws).closedFds = [fd] ∧
      ∃ r, (handle_client_data fd st pending evts ws).outcome = .closed r) ∨
    ((handle_client_data fd st pending evts ws).st =
        close_client fd ⟨eraseFd fd st.client_buffers,
          get_fd_mutex_reg fd st.fd_mutexes⟩ ∧
      (handle_client_data fd st pending evts ws).closedFds = [fd] ∧
      ∃ r, (handle_client_data fd st pending evts ws).outcome = .closed r) ∨
    (handle_client_data fd st pending evts ws).outcome = .diverged ∨
    ∃ m, (handle_client_data fd st pending evts ws).outcome = .rearmed m := by
  simp only [handle_client_data]
  split
  · exact Or.inl ⟨rfl, rfl, _, rfl⟩
  · split
    · exact Or.inr (Or.inl ⟨rfl, rfl, _, rfl⟩)
    · split
      · exact Or.inr (Or.inl ⟨rfl, rfl, _, rfl⟩)
      · split
        · exact Or.inr (Or.inl ⟨rfl, rfl, _, rfl⟩)
        · split
          · exact Or.inr (Or.inl ⟨rfl, rfl, _, rfl⟩)
          · split
            · exact Or.inr (Or.inl ⟨rfl, rfl, _, rfl⟩)
            · exact Or.inr (Or.inr (Or.inl rfl))
            · split
              · exact Or.inr (Or.inl ⟨rfl, rfl, _, rfl⟩)
              · exact Or.inr (Or.inr (Or.inl rfl))
              · exact Or.inr (Or.inr (Or.inr ⟨_, rfl⟩))

/-- Claim C9: after any Close exit of the handler for handle `fd`, the
registry holds neither a buffer entry nor a lock entry for `fd`, the taken
buffer is discarded rather than returned, the fd itself was closed, and
every other handle's registry entries are unchanged. -/
theorem c9_close_discards_registry (fd : Nat) (st : ServerSt)
    (pending : List Nat) (evts : List NetEvt) (ws : List WriteEvt)
    (r : CloseReason)
    (hc : (handle_client_data fd st pending evts ws).outcome = .closed r) :
    (handle_client_data fd st pending evts ws).closedFds = [fd] ∧
    lookupFd fd
      (handle_client_data fd st pending evts ws).st.client_buffers = none ∧
    fd ∉ (handle_client_data fd st pending evts ws).st.fd_mutexes ∧
    (∀ g, g ≠ fd →
      lookupFd g (handle_client_data fd st pending evts ws).st.client_buffers
        = lookupFd g st.client_buffers) ∧
    (∀ g, g ≠ fd →
      (g ∈ (handle_client_data fd st pending evts ws).st.fd_mutexes ↔
        g ∈ st.fd_mutexes)) := by
  rcases handle_st_shape fd st pending evts ws with
    ⟨hst, hcl, _⟩ | ⟨hst, hcl, _⟩ | hd | ⟨m, hm⟩
  · obtain ⟨a, b, c, d⟩ :=
      close_client_props fd st st.client_buffers (Or.inl rfl)
    rw [hst]
    exact ⟨hcl, a, b, c, d⟩
  · obtain ⟨a, b, c, d⟩ :=
      close_client_props fd st (eraseFd fd st.client_buffers) (Or.inr rfl)
    rw [hst]
    exact ⟨hcl, a, b, c, d⟩
  · rw [hd] at hc
    simp at hc
  · rw [hm] at hc
    simp at hc

/-- Claim C9 witness: a concrete Close exit (missing buffer for fd 9). -/
theorem c9_close_discards_registry_witness :
    (handle_client_data 9 ⟨[(4, [2])], [4]⟩ [] [] []).outcome =
      .closed .noBuffer ∧
    ((handle_client_data 9 ⟨[(4, [2])], [4]⟩ [] [] []).closedFds = [9] ∧
     lookupFd 9 (handle_client_data 9 ⟨[(4, [2])], [4]⟩ [] []
        []).st.client_buffers = none ∧
     9 ∉ (handle_client_data 9 ⟨[(4, [2])], [4]⟩ [] [] []).st.fd_mutexes ∧
     (∀ g, g ≠ 9 →
       lookupFd g (handle_client_data 9 ⟨[(4, [2])], [4]⟩ [] []
          []).st.client_buffers =
         lookupFd g (⟨[(4, [2])], [4]⟩ : ServerSt).client_buffers) ∧
     (∀ g, g ≠ 9 →
       (g ∈ (handle_client_data 9 ⟨[(4, [2])], [4]⟩ [] [] []).st.fd_mutexes ↔
         g ∈ (⟨[(4, [2])], [4]⟩ : ServerSt).fd_mutexes))) :=
  ⟨by decide,
   c9_close_discards_registry 9 ⟨[(4, [2])], [4]⟩ [] [] [] .noBuffer
     (by decide)⟩

/-- Claim C10: every `read` call of the header loop targets the 12-byte
header accumulator at an offset below 12 with exactly the remaining
bytes requested, and every `read` call of the body loop targets the
connection buffer at offset `data_read` with length
`data_len - data_read`, staying within the `BUFFER_SIZE`-byte buffer. -/
theorem c10_reads_stay_in_bounds (fd : Nat) (st : ServerSt)
    (pending : List Nat) (evts : List NetEvt) (ws : List WriteEvt) :
    (∀ pr ∈ (handle_client_data fd st pending evts ws).hdrRecs,
      0 < pr.2 ∧ pr.1 + pr.2 = 12) ∧
    (∀ pr ∈ (handle_client_data fd st pending evts ws).bodyRecs,
      0 < pr.2 ∧ pr.1 + pr.2 ≤ BUFFER_SIZE) := by
  constructor
  · intro pr hpr
    simp only [handle_client_data] at hpr
    split at hpr
    · simp [mkClosed] at hpr
    · split at hpr
      · simp only [mkClosed] at hpr
        obtain ⟨h1, h2⟩ := readExact_recs_bounds pr hpr
        omega
      · split at hpr
        · simp only [mkClosed] at hpr
          obtain ⟨h1, h2⟩ := readExact_recs_bounds pr hpr
          omega
        · split at hpr
          · simp only [mkClosed] at hpr
            obtain ⟨h1, h2⟩ := readExact_recs_bounds pr hpr
            omega
          · split at hpr
            · simp only [mkClosed] at hpr
              obtain ⟨h1, h2⟩ := readExact_recs_bounds pr hpr
              omega
            · split at hpr
              · simp only [mkClosed] at hpr
                obtain ⟨h1, h2⟩ := readExact_recs_bounds pr hpr
                omega
              · simp only [] at hpr
                obtain ⟨h1, h2⟩ := readExact_recs_bounds pr hpr
                omega
              · split at hpr
                · simp only [mkClosed] at hpr
                  obtain ⟨h1, h2⟩ := readExact_recs_bounds pr hpr
                  omega
                · simp only [] at hpr
                  obtain ⟨h1, h2⟩ := readExact_recs_bounds pr hpr
                  omega
                · simp only [] at hpr
                  obtain ⟨h1, h2⟩ := readExact_recs_bounds pr hpr
                  omega
  · intro pr hpr
    simp only [handle_client_data] at hpr
    split at hpr
    · simp [mkClosed] at hpr
    · split at hpr
      · simp [mkClosed] at hpr
      · split at hpr
        · simp [mkClosed] at hpr
        · split at hpr
          · simp [mkClosed] at hpr
          · rename_i hdr hok hmg hlen
            have hle : dataLenOf hdr ≤ BUFFER_SIZE := by
              by_cases h : BUFFER_SIZE < dataLenOf hdr
              · exact absurd (Or.inr h) hlen
              · exact Nat.le_of_not_lt h
            split at hpr
            · simp only [mkClosed] at hpr
              obtain ⟨h1, h2⟩ := readExact_recs_bounds pr hpr
              omega
            · split at hpr
              · simp only [mkClosed] at hpr
                obtain ⟨h1, h2⟩ := readExact_recs_bounds pr hpr
                omega
              · simp only [] at hpr
                obtain ⟨h1, h2⟩ := readExact_recs_bounds pr hpr
                omega
              · split at hpr
                · simp only [mkClosed] at hpr
                  obtain ⟨h1, h2⟩ := readExact_recs_bounds pr hpr
                  omega
                · simp only [] at hpr
                  obtain ⟨h1, h2⟩ := readExact_recs_bounds pr hpr
                  omega
                · simp only [] at hpr
                  obtain ⟨h1, h2⟩ := readExact_recs_bounds pr hpr
                  omega

/-- Claim C10 witness: concrete run with one header-read and one
body-read syscall record each. -/
theorem c10_reads_stay_in_bounds_witness :
    ((0, 2) ∈ (handle_client_data 5 ⟨[(5, [])], []⟩
        ([0x1A, 0x2B, 0x3C, 0x4D, 0, 0, 0, 2, 0, 0, 0, 7] ++ [170, 187])
        [] [.acc 12, .acc 2]).bodyRecs) ∧
    (0 < ((0, 2) : Nat × Nat).2 ∧ ((0, 2) : Nat × Nat).1 +
        ((0, 2) : Nat × Nat).2 ≤ BUFFER_SIZE) :=
  ⟨by decide,
   (c10_reads_stay_in_bounds 5 ⟨[(5, [])], []⟩
      ([0x1A, 0x2B, 0x3C, 0x4D, 0, 0, 0, 2, 0, 0, 0, 7] ++ [170, 187])
      [] [.acc 12, .acc 2]).2 (0, 2) (by decide)⟩

/-- Claim C3: a received 12-byte header whose magic (after byte-order
conversion) differs from 0x1A2B3C4D closes the connection with no bytes
echoed; only that connection's registry entries are affected. -/
theorem c3_bad_magic_closes_connection (fd : Nat) (st : ServerSt)
    (buf : List Nat) (pending : List Nat) (evts : List NetEvt)
    (ws : List WriteEvt) (h : List Nat) (P : List Nat) (E : List NetEvt)
    (R : List (Nat × Nat))
    (hbuf : lookupFd fd st.client_buffers = some buf)
    (hr1 : readExact 12 pending evts = ⟨.ok h, P, E, R⟩)
    (hmagic : magicOf h ≠ MAGIC_NUMBER) :
    (handle_client_data fd st pending evts ws).out = [] ∧
    (handle_client_data fd st pending evts ws).outcome = .closed .badMagic ∧
    (handle_client_data fd st pending evts ws).closedFds = [fd] ∧
    lookupFd fd
      (handle_client_data fd st pending evts ws).st.client_buffers = none ∧
    fd ∉ (handle_client_data fd st pending evts ws).st.fd_mutexes ∧
    (∀ g, g ≠ fd →
      lookupFd g (handle_client_data fd st pending evts ws).st.client_buffers
        = lookupFd g st.client_buffers) ∧
    (∀ g, g ≠ fd →
      (g ∈ (handle_client_data fd st pending evts ws).st.fd_mutexes ↔
        g ∈ st.fd_mutexes)) := by
  have hres : handle_client_data fd st pending evts ws =
      mkClosed fd ⟨eraseFd fd st.client_buffers,
          get_fd_mutex_reg fd st.fd_mutexes⟩ [] P E ws 1 false R []
        .badMagic := by
    simp only [handle_client_data, hbuf, hr1]
    rw [if_pos hmagic]
  rw [hres]
  obtain ⟨a, b, c, d⟩ :=
    close_client_props fd st (eraseFd fd st.client_buffers) (Or.inr rfl)
  exact ⟨rfl, rfl, rfl, a, b, c, d⟩

/-- Claim C3 witness: fd 5 receives a header with magic 0x09090909; fd 6's
entries survive. -/
theorem c3_bad_magic_closes_connection_witness :
    lookupFd 5 (⟨[(5, []), (6, [1])], [6]⟩ : ServerSt).client_buffers =
      some [] ∧
    readExact 12 [9, 9, 9, 9, 0, 0, 0, 2, 0, 0, 0, 7] [] =
      ⟨.ok [9, 9, 9, 9, 0, 0, 0, 2, 0, 0, 0, 7], [], [], [(0, 12)]⟩ ∧
    magicOf [9, 9, 9, 9, 0, 0, 0, 2, 0, 0, 0, 7] ≠ MAGIC_NUMBER ∧
    ((handle_client_data 5 ⟨[(5, []), (6, [1])], [6]⟩
        [9, 9, 9, 9, 0, 0, 0, 2, 0, 0, 0, 7] [] []).out = [] ∧
     (handle_client_data 5 ⟨[(5, []), (6, [1])], [6]⟩
        [9, 9, 9, 9, 0, 0, 0, 2, 0, 0, 0, 7] [] []).outcome =
       .closed .badMagic ∧
     (handle_client_data 5 ⟨[(5, []), (6, [1])], [6]⟩
        [9, 9, 9, 9, 0, 0, 0, 2, 0, 0, 0, 7] [] []).closedFds = [5] ∧
     lookupFd 5 (handle_client_data 5 ⟨[(5, []), (6, [1])], [6]⟩
        [9, 9, 9, 9, 0, 0, 0, 2, 0, 0, 0, 7] [] []).st.client_buffers =
       none ∧
     5 ∉ (handle_client_data 5 ⟨[(5, []), (6, [1])], [6]⟩
        [9, 9, 9, 9, 0, 0, 0, 2, 0, 0, 0, 7] [] []).st.fd_mutexes ∧
     (∀ g, g ≠ 5 →
       lookupFd g (handle_client_data 5 ⟨[(5, []), (6, [1])], [6]⟩
          [9, 9, 9, 9, 0, 0, 0, 2, 0, 0, 0, 7] [] []).st.client_buffers =
         lookupFd g (⟨[(5, []), (6, [1])], [6]⟩ : ServerSt).client_buffers) ∧
     (∀ g, g ≠ 5 →
       (g ∈ (handle_client_data 5 ⟨[(5, []), (6, [1])], [6]⟩
          [9, 9, 9, 9, 0, 0, 0, 2, 0, 0, 0, 7] [] []).st.fd_mutexes ↔
         g ∈ (⟨[(5, []), (6, [1])], [6]⟩ : ServerSt).fd_mutexes))) :=
  ⟨by decide, by decide, by decide,
   c3_bad_magic_closes_connection 5 ⟨[(5, []), (6, [1])], [6]⟩ []
     [9, 9, 9, 9, 0, 0, 0, 2, 0, 0, 0, 7] [] []
     [9, 9, 9, 9, 0, 0, 0, 2, 0, 0, 0, 7] [] [] [(0, 12)]
     (by decide) (by decide) (by decide)⟩

/-- Claim C4: with a valid-magic header, the body read is entered iff
`0 < data_len ≤ BUFFER_SIZE`; a zero or oversized `data_len` closes the
connection with nothing echoed and the fd's registry entry removed. -/
theorem c4_length_validation (fd : Nat) (st : ServerSt) (buf : List Nat)
    (pending : List Nat) (evts : List NetEvt) (ws : List WriteEvt)
    (h : List Nat) (P : List Nat) (E : List NetEvt) (R : List (Nat × Nat))
    (hbuf : lookupFd fd st.client_buffers = some buf)
    (hr1 : readExact 12 pending evts = ⟨.ok h, P, E, R⟩)
    (hmagic : magicOf h = MAGIC_NUMBER) :
    ((handle_client_data fd st pending evts ws).enteredBody = true ↔
      (0 < dataLenOf h ∧ dataLenOf h ≤ BUFFER_SIZE)) ∧
    ((dataLenOf h = 0 ∨ BUFFER_SIZE < dataLenOf h) →
      (handle_client_data fd st pending evts ws).out = [] ∧
      (handle_client_data fd st pending evts ws).outcome = .closed .badLen ∧
      (handle_client_data fd st pending evts ws).closedFds = [fd] ∧
      lookupFd fd
        (handle_client_data fd st pending evts ws).st.client_buffers =
        none) := by
  have hmne : ¬ (magicOf h ≠ MAGIC_NUMBER) := by simp [hmagic]
  by_cases hlen : dataLenOf h = 0 ∨ BUFFER_SIZE < dataLenOf h
  · have hres : handle_client_data fd st pending evts ws =
        mkClosed fd ⟨eraseFd fd st.client_buffers,
            get_fd_mutex_reg fd st.fd_mutexes⟩ [] P E ws 1 false R []
          .badLen := by
      simp only [handle_client_data, hbuf, hr1]
      rw [if_neg hmne, if_pos hlen]
    rw [hres]
    obtain ⟨a, b, c, d⟩ :=
      close_client_props fd st (eraseFd fd st.client_buffers) (Or.inr rfl)
    refine ⟨?_, fun _ => ⟨rfl, rfl, rfl, a⟩⟩
    refine iff_of_false (by simp [mkClosed]) ?_
    rintro ⟨h1, h2⟩
    rcases hlen with h0 | hgt
    · omega
    · exact absurd h2 (Nat.not_le_of_lt hgt)
  · have hrhs : 0 < dataLenOf h ∧ dataLenOf h ≤ BUFFER_SIZE := by
      push_neg at hlen
      exact ⟨Nat.pos_of_ne_zero hlen.1, Nat.le_of_not_lt
        (fun hc => absurd hc (by omega))⟩
    refine ⟨iff_of_true ?_ hrhs, fun hc => absurd hc hlen⟩
    simp only [handle_client_data, hbuf, hr1]
    rw [if_neg hmne, if_neg hlen]
    split
    · rfl
    · split
      · rfl
      · rfl
      · split
        · rfl
        · rfl
        · rfl

/-- Claim C4 witness: data_len 0 is rejected; data_len 2 enters the body
read. -/
theorem c4_length_validation_witness :
    ((handle_client_data 5 ⟨[(5, [])], []⟩
        [0x1A, 0x2B, 0x3C, 0x4D, 0, 0, 0, 0, 0, 0, 0, 3] [] []).enteredBody
        = true ↔
      (0 < dataLenOf [0x1A, 0x2B, 0x3C, 0x4D, 0, 0, 0, 0, 0, 0, 0, 3] ∧
        dataLenOf [0x1A, 0x2B, 0x3C, 0x4D, 0, 0, 0, 0, 0, 0, 0, 3] ≤
          BUFFER_SIZE)) ∧
    ((dataLenOf [0x1A, 0x2B, 0x3C, 0x4D, 0, 0, 0, 0, 0, 0, 0, 3] = 0 ∨
        BUFFER_SIZE <
          dataLenOf [0x1A, 0x2B, 0x3C, 0x4D, 0, 0, 0, 0, 0, 0, 0, 3]) →
      (handle_client_data 5 ⟨[(5, [])], []⟩
          [0x1A, 0x2B, 0x3C, 0x4D, 0, 0, 0, 0, 0, 0, 0, 3] [] []).out = [] ∧
      (handle_client_data 5 ⟨[(5, [])], []⟩
          [0x1A, 0x2B, 0x3C, 0x4D, 0, 0, 0, 0, 0, 0, 0, 3] [] []).outcome =
        .closed .badLen ∧
      (handle_client_data 5 ⟨[(5, [])], []⟩
          [0x1A, 0x2B, 0x3C, 0x4D, 0, 0, 0, 0, 0, 0, 0, 3] [] []).closedFds
        = [5] ∧
      lookupFd 5 (handle_client_data 5 ⟨[(5, [])], []⟩
          [0x1A, 0x2B, 0x3C, 0x4D, 0, 0, 0, 0, 0, 0, 0, 3] [] []
          ).st.client_buffers = none) :=
  c4_length_validation 5 ⟨[(5, [])], []⟩ []
    [0x1A, 0x2B, 0x3C, 0x4D, 0, 0, 0, 0, 0, 0, 0, 3] [] []
    [0x1A, 0x2B, 0x3C, 0x4D, 0, 0, 0, 0, 0, 0, 0, 3] [] [] [(0, 12)]
    (by decide) (by decide) (by decide)

/-- Claim C6 counterexample: when the buffer for fd 9 is missing from the
registry, the handler does NOT abandon silently — it emits an error-level
log and performs full teardown (the fd is closed via `close_client`). -/
theorem c6_counterexample_teardown_and_error_log :
    (handle_client_data 9 ⟨[(5, [])], []⟩ [] [] []).errLogs = 1 ∧
    (handle_client_data 9 ⟨[(5, [])], []⟩ [] [] []).closedFds = [9] ∧
    (handle_client_data 9 ⟨[(5, [])], []⟩ [] [] []).closedFds ≠ [] ∧
    (handle_client_data 9 ⟨[(5, [])], []⟩ [] [] []).outcome =
      .closed .noBuffer := by
  decide

/-- Claim C6 (amended): when the handler takes the buffer for a handle and
the handle is unknown to the registry, it echoes nothing, logs one error,
and tears the connection down via `close_client` (the fd is closed and its
mutex entry erased). -/
theorem c6_missing_buffer_teardown (fd : Nat) (st : ServerSt)
    (pending : List Nat) (evts : List NetEvt) (ws : List WriteEvt)
    (hbuf : lookupFd fd st.client_buffers = none) :
    (handle_client_data fd st pending evts ws).out = [] ∧
    (handle_client_data fd st pending evts ws).errLogs = 1 ∧
    (handle_client_data fd st pending evts ws).closedFds = [fd] ∧
    (handle_client_data fd st pending evts ws).outcome = .closed .noBuffer ∧
    fd ∉ (handle_client_data fd st pending evts ws).st.fd_mutexes := by
  have hres : handle_client_data fd st pending evts ws =
      mkClosed fd ⟨st.client_buffers, get_fd_mutex_reg fd st.fd_mutexes⟩
        [] pending evts ws 1 false [] [] .noBuffer := by
    simp only [handle_client_data, hbuf]
  rw [hres]
  obtain ⟨a, b, c, d⟩ :=
    close_client_props fd st st.client_buffers (Or.inl rfl)
  exact ⟨rfl, rfl, rfl, rfl, b⟩

/-- Claim C6 witness: concrete missing-buffer invocation. -/
theorem c6_missing_buffer_teardown_witness :
    lookupFd 9 (⟨[(5, [])], []⟩ : ServerSt).client_buffers = none ∧
    ((handle_client_data 9 ⟨[(5, [])], []⟩ [] [] [.wblk]).out = [] ∧
     (handle_client_data 9 ⟨[(5, [])], []⟩ [] [] [.wblk]).errLogs = 1 ∧
     (handle_client_data 9 ⟨[(5, [])], []⟩ [] [] [.wblk]).closedFds = [9] ∧
     (handle_client_data 9 ⟨[(5, [])], []⟩ [] [] [.wblk]).outcome =
       .closed .noBuffer ∧
     9 ∉ (handle_client_data 9 ⟨[(5, [])], []⟩ [] [] [.wblk]).st.fd_mutexes) :=
  ⟨by decide,
   c6_missing_buffer_teardown 9 ⟨[(5, [])], []⟩ [] [] [.wblk] (by decide)⟩

/-- Claim C1: evaluation at the failing input.  A fully received valid
frame (magic 0x1A2B3C4D, data_len 2, msg_id 7, payload [170, 187]) whose
first header `write` is accepted only partially (5 of 12 bytes) is echoed
CORRUPTED: the header echo loop re-sends from the start of the header
(`write(client_fd, &header, header_total - total_written)` does not
advance the source pointer), so the wire carries
`header[0..4] ++ header[0..6]` instead of the 12 header bytes, yet the
handler still reports success and re-arms. -/
theorem c1_short_header_write_corrupts_echo :
    (handle_client_data 5 ⟨[(5, [])], []⟩ []
        [.data ([0x1A, 0x2B, 0x3C, 0x4D, 0, 0, 0, 2, 0, 0, 0, 7] ++
          [170, 187])]
        [.acc 5, .acc 12, .acc 12]).out =
      ([0x1A, 0x2B, 0x3C, 0x4D, 0] ++ [0x1A, 0x2B, 0x3C, 0x4D, 0, 0, 0]) ++
        [170, 187] ∧
    (handle_client_data 5 ⟨[(5, [])], []⟩ []
        [.data ([0x1A, 0x2B, 0x3C, 0x4D, 0, 0, 0, 2, 0, 0, 0, 7] ++
          [170, 187])]
        [.acc 5, .acc 12, .acc 12]).out ≠
      [0x1A, 0x2B, 0x3C, 0x4D, 0, 0, 0, 2, 0, 0, 0, 7] ++ [170, 187] ∧
    (handle_client_data 5 ⟨[(5, [])], []⟩ []
        [.data ([0x1A, 0x2B, 0x3C, 0x4D, 0, 0, 0, 2, 0, 0, 0, 7] ++
          [170, 187])]
        [.acc 5, .acc 12, .acc 12]).outcome = .rearmed 7 := by
  decide

/-- Claim C2 counterexample: two complete valid frames
(`hA ++ [65]` and `hB ++ [66]`) sent back-to-back in one chunk.  The first
handler cycle echoes frame A and then its drain step reads and DISCARDS
the entire second frame; the next cycle finds no data and closes on header
timeout.  The total bytes echoed on the connection are frame A only — the
second frame is never echoed, contradicting the claim that both frames
are echoed in order. -/
theorem c2_counterexample_second_frame_discarded :
    (handle_client_data 5 ⟨[(5, [])], []⟩ []
        [.data (([0x1A, 0x2B, 0x3C, 0x4D, 0, 0, 0, 1, 0, 0, 0, 1] ++ [65]) ++
          ([0x1A, 0x2B, 0x3C, 0x4D, 0, 0, 0, 1, 0, 0, 0, 2] ++ [66]))]
        [.acc 12, .acc 1, .acc 12, .acc 1]).out =
      [0x1A, 0x2B, 0x3C, 0x4D, 0, 0, 0, 1, 0, 0, 0, 1] ++ [65] ∧
    (handle_client_data 5 ⟨[(5, [])], []⟩ []
        [.data (([0x1A, 0x2B, 0x3C, 0x4D, 0, 0, 0, 1, 0, 0, 0, 1] ++ [65]) ++
          ([0x1A, 0x2B, 0x3C, 0x4D, 0, 0, 0, 1, 0, 0, 0, 2] ++ [66]))]
        [.acc 12, .acc 1, .acc 12, .acc 1]).drained =
      [0x1A, 0x2B, 0x3C, 0x4D, 0, 0, 0, 1, 0, 0, 0, 2] ++ [66] ∧
    (let r1 := handle_client_data 5 ⟨[(5, [])], []⟩ []
        [.data (([0x1A, 0x2B, 0x3C, 0x4D, 0, 0, 0, 1, 0, 0, 0, 1] ++ [65]) ++
          ([0x1A, 0x2B, 0x3C, 0x4D, 0, 0, 0, 1, 0, 0, 0, 2] ++ [66]))]
        [.acc 12, .acc 1, .acc 12, .acc 1]
     (handle_client_data 5 r1.st r1.pending r1.evts r1.ws).out = [] ∧
     (handle_client_data 5 r1.st r1.pending r1.evts r1.ws).outcome =
       .closed .hdrTimeout ∧
     r1.out ++ (handle_client_data 5 r1.st r1.pending r1.evts r1.ws).out ≠
       (([0x1A, 0x2B, 0x3C, 0x4D, 0, 0, 0, 1, 0, 0, 0, 1] ++ [65]) ++
         ([0x1A, 0x2B, 0x3C, 0x4D, 0, 0, 0, 1, 0, 0, 0, 2] ++ [66]))) := by
  decide

/-- Claim C2 (amended): output is never interleaved or corrupted — the
first frame is echoed byte-for-byte — but pipelining is not supported:
any bytes of a second valid frame already buffered when the first cycle's
drain step runs are read and discarded, and the following cycle, finding
no data, times out and closes; the second frame is echoed if and only if
it arrives after the first cycle's drain has completed, in which case both
frames are echoed in order. -/
theorem c2_sequential_frames (fd : Nat) (st : ServerSt)
    (buf h1 p1 h2 p2 : List Nat) (n1 n2 n3 n4 : Nat)
    (hbuf : lookupFd fd st.client_buffers = some buf)
    (hh1 : h1.length = 12) (hm1 : magicOf h1 = MAGIC_NUMBER)
    (hl1 : dataLenOf h1 = p1.length) (hp1 : p1 ≠ [])
    (hb1 : p1.length ≤ BUFFER_SIZE)
    (hh2 : h2.length = 12) (hm2 : magicOf h2 = MAGIC_NUMBER)
    (hl2 : dataLenOf h2 = p2.length) (hp2 : p2 ≠ [])
    (hb2 : p2.length ≤ BUFFER_SIZE)
    (hn1 : 12 ≤ n1) (hn2 : p1.length ≤ n2) (hn3 : 12 ≤ n3)
    (hn4 : p2.length ≤ n4) :
    -- both frames buffered back-to-back before the first cycle:
    ((handle_client_data fd st (h1 ++ p1 ++ (h2 ++ p2)) []
        (.acc n1 :: .acc n2 :: .acc n3 :: .acc n4 :: [])).out = h1 ++ p1 ∧
     (handle_client_data fd st (h1 ++ p1 ++ (h2 ++ p2)) []
        (.acc n1 :: .acc n2 :: .acc n3 :: .acc n4 :: [])).drained =
       h2 ++ p2 ∧
     (handle_client_data fd
        (handle_client_data fd st (h1 ++ p1 ++ (h2 ++ p2)) []
          (.acc n1 :: .acc n2 :: .acc n3 :: .acc n4 :: [])).st
        (handle_client_data fd st (h1 ++ p1 ++ (h2 ++ p2)) []
          (.acc n1 :: .acc n2 :: .acc n3 :: .acc n4 :: [])).pending
        (handle_client_data fd st (h1 ++ p1 ++ (h2 ++ p2)) []
          (.acc n1 :: .acc n2 :: .acc n3 :: .acc n4 :: [])).evts
        (handle_client_data fd st (h1 ++ p1 ++ (h2 ++ p2)) []
          (.acc n1 :: .acc n2 :: .acc n3 :: .acc n4 :: [])).ws).out = [] ∧
     (handle_client_data fd
        (handle_client_data fd st (h1 ++ p1 ++ (h2 ++ p2)) []
          (.acc n1 :: .acc n2 :: .acc n3 :: .acc n4 :: [])).st
        (handle_client_data fd st (h1 ++ p1 ++ (h2 ++ p2)) []
          (.acc n1 :: .acc n2 :: .acc n3 :: .acc n4 :: [])).pending
        (handle_client_data fd st (h1 ++ p1 ++ (h2 ++ p2)) []
          (.acc n1 :: .acc n2 :: .acc n3 :: .acc n4 :: [])).evts
        (handle_client_data fd st (h1 ++ p1 ++ (h2 ++ p2)) []
          (.acc n1 :: .acc n2 :: .acc n3 :: .acc n4 :: [])).ws).outcome =
       .closed .hdrTimeout) ∧
    -- second frame arrives only after the first cycle's drain:
    ((handle_client_data fd st (h1 ++ p1 ++ []) []
        (.acc n1 :: .acc n2 :: .acc n3 :: .acc n4 :: [])).out = h1 ++ p1 ∧
     (handle_client_data fd
        (handle_client_data fd st (h1 ++ p1 ++ []) []
          (.acc n1 :: .acc n2 :: .acc n3 :: .acc n4 :: [])).st
        (h2 ++ p2 ++ []) []
        (handle_client_data fd st (h1 ++ p1 ++ []) []
          (.acc n1 :: .acc n2 :: .acc n3 :: .acc n4 :: [])).ws).out =
       h2 ++ p2 ∧
     (handle_client_data fd st (h1 ++ p1 ++ []) []
          (.acc n1 :: .acc n2 :: .acc n3 :: .acc n4 :: [])).out ++
       (handle_client_data fd
          (handle_client_data fd st (h1 ++ p1 ++ []) []
            (.acc n1 :: .acc n2 :: .acc n3 :: .acc n4 :: [])).st
          (h2 ++ p2 ++ []) []
          (handle_client_data fd st (h1 ++ p1 ++ []) []
            (.acc n1 :: .acc n2 :: .acc n3 :: .acc n4 :: [])).ws).out =
       (h1 ++ p1) ++ (h2 ++ p2)) := by
  have hdrainA : drain (h2 ++ p2) ([] : List NetEvt) = (h2 ++ p2, []) := by
    cases h2 with
    | nil => simp at hh2
    | cons b bs => simp [drain, drainEvts]
  have hdrainB : drain ([] : List Nat) ([] : List NetEvt) = ([], []) := by
    simp [drain, drainEvts]
  have hA := handle_valid_frame fd st buf h1 p1 (h2 ++ p2) [] n1 n2
    (.acc n3 :: .acc n4 :: []) hbuf hh1 hm1 hl1 hp1 hb1 hn1 hn2
  simp only [hdrainA] at hA
  have hB := handle_valid_frame fd st buf h1 p1 [] [] n1 n2
    (.acc n3 :: .acc n4 :: []) hbuf hh1 hm1 hl1 hp1 hb1 hn1 hn2
  simp only [hdrainB] at hB
  have ht := handle_header_timeout fd
    ⟨(fd, p1 ++ List.replicate (BUFFER_SIZE - p1.length) 0) ::
      eraseFd fd st.client_buffers, get_fd_mutex_reg fd st.fd_mutexes⟩
    (p1 ++ List.replicate (BUFFER_SIZE - p1.length) 0)
    (.acc n3 :: .acc n4 :: []) lookupFd_cons_self
  have hbuf2 : lookupFd fd
      ((⟨(fd, p1 ++ List.replicate (BUFFER_SIZE - p1.length) 0) ::
        eraseFd fd st.client_buffers,
        get_fd_mutex_reg fd st.fd_mutexes⟩ : ServerSt).client_buffers) =
      some (p1 ++ List.replicate (BUFFER_SIZE - p1.length) 0) :=
    lookupFd_cons_self
  have hC := handle_valid_frame fd
    ⟨(fd, p1 ++ List.replicate (BUFFER_SIZE - p1.length) 0) ::
      eraseFd fd st.client_buffers, get_fd_mutex_reg fd st.fd_mutexes⟩
    (p1 ++ List.replicate (BUFFER_SIZE - p1.length) 0) h2 p2 [] [] n3 n4
    ([] : List WriteEvt) hbuf2 hh2 hm2 hl2 hp2 hb2 hn3 hn4
  simp only [hdrainB] at hC
  constructor
  · rw [hA]
    dsimp only
    rw [ht]
    exact ⟨rfl, rfl, rfl, rfl⟩
  · rw [hB]
    dsimp only
    rw [hC]
    exact ⟨rfl, rfl, rfl⟩

/-- Claim C2 witness: concrete frames, second frame sent after the first
cycle completes; both echoes appear in order. -/
theorem c2_sequential_frames_witness :
    lookupFd 5 (⟨[(5, [])], []⟩ : ServerSt).client_buffers = some [] ∧
    magicOf [26, 43, 60, 77, 0, 0, 0, 1, 0, 0, 0, 1] = MAGIC_NUMBER ∧
    ((handle_client_data 5 ⟨[(5, [])], []⟩
        ([26, 43, 60, 77, 0, 0, 0, 1, 0, 0, 0, 1] ++ [65] ++ []) []
        (.acc 12 :: .acc 1 :: .acc 12 :: .acc 1 :: [])).out ++
      (handle_client_data 5
        (handle_client_data 5 ⟨[(5, [])], []⟩
          ([26, 43, 60, 77, 0, 0, 0, 1, 0, 0, 0, 1] ++ [65] ++ []) []
          (.acc 12 :: .acc 1 :: .acc 12 :: .acc 1 :: [])).st
        ([26, 43, 60, 77, 0, 0, 0, 1, 0, 0, 0, 2] ++ [66] ++ []) []
        (handle_client_data 5 ⟨[(5, [])], []⟩
          ([26, 43, 60, 77, 0, 0, 0, 1, 0, 0, 0, 1] ++ [65] ++ []) []
          (.acc 12 :: .acc 1 :: .acc 12 :: .acc 1 :: [])).ws).out =
      ([26, 43, 60, 77, 0, 0, 0, 1, 0, 0, 0, 1] ++ [65]) ++
        ([26, 43, 60, 77, 0, 0, 0, 1, 0, 0, 0, 2] ++ [66])) :=
  ⟨by decide, by decide,
   ((c2_sequential_frames 5 ⟨[(5, [])], []⟩ []
      [26, 43, 60, 77, 0, 0, 0, 1, 0, 0, 0, 1] [65]
      [26, 43, 60, 77, 0, 0, 0, 1, 0, 0, 0, 2] [66] 12 1 12 1
      (by decide) (by decide) (by decide) (by decide) (by decide) (by decide)
      (by decide) (by decide) (by decide) (by decide) (by decide) (by decide)
      (by decide) (by decide) (by decide)).2).2.2⟩

/-- Lock-ownership invariant: a dispatch inside the handler body holds the
per-fd mutex. -/
def TDInv (s : TwoDispatch) : Prop :=
  (s.pcA.isInCrit = true → s.lockHolder = some false) ∧
  (s.pcB.isInCrit = true → s.lockHolder = some true)

theorem lockStep_preserves_TDInv {s s' : TwoDispatch} (h : LockStep s s')
    (hi : TDInv s) : TDInv s' := by
  cases h with
  | acquireA hnone hpc =>
      refine ⟨fun _ => rfl, fun hb => ?_⟩
      have hx := hi.2 hb
      rw [hnone] at hx
      cases hx
  | acquireB hnone hpc =>
      refine ⟨fun ha => ?_, fun _ => rfl⟩
      have hx := hi.1 ha
      rw [hnone] at hx
      cases hx
  | workA ph ph' hpc hnext =>
      exact ⟨fun _ => hi.1 (by rw [hpc]; rfl), fun hb => hi.2 hb⟩
  | workB ph ph' hpc hnext =>
      exact ⟨fun ha => hi.1 ha, fun _ => hi.2 (by rw [hpc]; rfl)⟩
  | releaseA hpc =>
      refine ⟨fun ha => (nomatch ha), fun hb => ?_⟩
      have h1 := hi.1 (by rw [hpc]; rfl)
      have h2 := hi.2 hb
      rw [h1] at h2
      cases h2
  | releaseB hpc =>
      refine ⟨fun ha => ?_, fun hb => (nomatch hb)⟩
      have h1 := hi.2 (by rw [hpc]; rfl)
      have h2 := hi.1 ha
      rw [h1] at h2
      cases h2

theorem reachableTD_inv {s : TwoDispatch} (h : ReachableTD s) : TDInv s := by
  induction h with
  | refl =>
      exact ⟨fun ha => (nomatch ha), fun hb => (nomatch hb)⟩
  | tail hs hstep ih => exact lockStep_preserves_TDInv hstep ih

/-- Claim C5: two readiness dispatches for the same handle are serialized
by the per-connection lock held for the whole processing cycle: in every
reachable interleaving state, at most one of the two invocations is inside
the handler body, so they never access the connection's buffer
concurrently. -/
theorem c5_per_fd_lock_mutual_exclusion (s : TwoDispatch)
    (h : ReachableTD s) :
    ¬ (s.pcA.isInCrit = true ∧ s.pcB.isInCrit = true) := by
  rintro ⟨ha, hb⟩
  have hi := reachableTD_inv h
  have h1 := hi.1 ha
  have h2 := hi.2 hb
  rw [h1] at h2
  cases h2

/-- Claim C5 witness: the state where dispatch A has entered the handler
body (after acquiring the lock) while B waits. -/
theorem c5_per_fd_lock_mutual_exclusion_witness :
    ReachableTD ⟨some false, .inCrit .takeBuffer, .beforeLock⟩ ∧
    ¬ ((DispPc.inCrit .takeBuffer).isInCrit = true ∧
        (DispPc.beforeLock).isInCrit = true) :=
  ⟨Relation.ReflTransGen.single (LockStep.acquireA initTwoDispatch rfl rfl),
   c5_per_fd_lock_mutual_exclusion ⟨some false, .inCrit .takeBuffer,
      .beforeLock⟩
     (Relation.ReflTransGen.single
       (LockStep.acquireA initTwoDispatch rfl rfl))⟩

/-- Claim C7 counterexample: an event that signals only error/hangup on a
connection handle (fd 7, listening fd 3) is dispatched to
`handle_client_data` by the threaded server's `start` loop — which never
examines the event mask — and even the plain server's `run` loop invokes
the handler for a readable-and-hangup event; neither routes these directly
to teardown. -/
theorem c7_counterexample_error_event_reaches_handler :
    dispatch_start 3 7 (EPOLLERR ||| EPOLLHUP) = .handleData 7 ∧
    dispatch_start 3 7 (EPOLLERR ||| EPOLLHUP) ≠ .teardown 7 ∧
    dispatch_run 3 7 (EPOLLIN ||| EPOLLHUP) = .handleData 7 ∧
    dispatch_run 3 7 (EPOLLIN ||| EPOLLHUP) ≠ .teardown 7 := by
  decide

/-- Claim C7 (amended): in the plain server's `run` loop an error/hangup
event on a connection that does NOT also signal readable is routed
directly to `close_client`, bypassing the handler; in the threaded
server's `start` loop every connection event, whatever its mask, invokes
the handler instead. -/
theorem c7_error_routing (listen_fd fd m : Nat) (hfd : fd ≠ listen_fd)
    (hin : m &&& EPOLLIN = 0) (herr : m &&& (EPOLLERR ||| EPOLLHUP) ≠ 0) :
    dispatch_run listen_fd fd m = .teardown fd ∧
    (∀ m3, dispatch_start listen_fd fd m3 = .handleData fd) := by
  constructor
  · unfold dispatch_run
    rw [if_neg hfd, if_neg (by simp [hin]), if_pos herr]
  · intro m3
    unfold dispatch_start
    rw [if_neg hfd]

/-- Claim C7 witness: a pure `EPOLLERR` event on fd 7 with listening fd 3
is torn down by the `run` loop but handled by the `start` loop. -/
theorem c7_error_routing_witness :
    (7 : Nat) ≠ 3 ∧ EPOLLERR &&& EPOLLIN = 0 ∧
    EPOLLERR &&& (EPOLLERR ||| EPOLLHUP) ≠ 0 ∧
    (dispatch_run 3 7 EPOLLERR = .teardown 7 ∧
     (∀ m3, dispatch_start 3 7 m3 = .handleData 7)) :=
  ⟨by decide, by decide, by decide,
   c7_error_routing 3 7 EPOLLERR (by decide) (by decide) (by decide)⟩

/-! ## Acceptor lemmas -/

theorem lookupFd_cons_ne {α : Type} {g k : Nat} {v : α} {l : List (Nat × α)}
    (h : ¬ k = g) : lookupFd g ((k, v) :: l) = lookupFd g l := by
  simp [lookupFd, h]

theorem accept_loop_closed : ∀ (evts : List AcceptEvt) (st : ServerSt),
    (accept_loop st evts).closed =
      ((batch_cands evts).filter (fun c => c.2 = false)).map Prod.fst := by
  intro evts
  induction evts with
  | nil => intro st; rfl
  | cons e r ih =>
      intro st
      cases e with
      | noMore => rfl
      | afail => rfl
      | conn fd nb ep =>
          cases nb with
          | false => simp [accept_loop, batch_cands, ih]
          | true =>
              cases ep with
              | false => simp [accept_loop, batch_cands, ih]
              | true => simp [accept_loop, batch_cands, ih]

theorem accept_loop_errLogs : ∀ (evts : List AcceptEvt) (st : ServerSt),
    batch_ends_ok evts = true →
    (accept_loop st evts).errLogs = batch_failures evts := by
  intro evts
  induction evts with
  | nil => intro st _; rfl
  | cons e r ih =>
      intro st hok
      cases e with
      | noMore => rfl
      | afail => cases hok
      | conn fd nb ep =>
          have hok' : batch_ends_ok r = true := hok
          cases nb with
          | false =>
              simp [accept_loop, batch_failures, batch_cands]
              rw [ih _ hok']
              simp [batch_failures]
          | true =>
              cases ep with
              | false =>
                  simp [accept_loop, batch_failures, batch_cands]
                  rw [ih _ hok']
                  simp [batch_failures]
              | true =>
                  simp [accept_loop, batch_failures, batch_cands]
                  rw [ih _ hok']
                  simp [batch_failures]

theorem accept_loop_registry : ∀ (evts : List AcceptEvt) (st : ServerSt),
    ((batch_cands evts).map Prod.fst).Nodup →
    (∀ c ∈ batch_cands evts, lookupFd c.1 st.client_buffers = none) →
    (∀ c ∈ batch_cands evts,
      (c.2 = true →
        lookupFd c.1 (accept_loop st evts).st.client_buffers =
          some (List.replicate BUFFER_SIZE 0)) ∧
      (c.2 = false →
        lookupFd c.1 (accept_loop st evts).st.client_buffers = none)) ∧
    (∀ g, (∀ c ∈ batch_cands evts, g ≠ c.1) →
      lookupFd g (accept_loop st evts).st.client_buffers =
        lookupFd g st.client_buffers) := by
  intro evts
  induction evts with
  | nil =>
      intro st _ _
      exact ⟨by simp [batch_cands], fun g _ => rfl⟩
  | cons e r ih =>
      intro st hnodup hfresh
      cases e with
      | noMore => exact ⟨by simp [batch_cands], fun g _ => rfl⟩
      | afail => exact ⟨by simp [batch_cands], fun g _ => rfl⟩
      | conn fd nb ep =>
          have hcands : batch_cands (AcceptEvt.conn fd nb ep :: r) =
              (fd, nb && ep) :: batch_cands r := rfl
          rw [hcands] at hnodup hfresh ⊢
          rw [List.map_cons] at hnodup
          have hfd_notin : fd ∉ (batch_cands r).map Prod.fst :=
            (List.nodup_cons.mp hnodup).1
          have hnd_tail : ((batch_cands r).map Prod.fst).Nodup :=
            (List.nodup_cons.mp hnodup).2
          have hfd_ne : ∀ c ∈ batch_cands r, fd ≠ c.1 := by
            intro c hc heq
            exact hfd_notin (heq ▸ List.mem_map_of_mem Prod.fst hc)
          have hfresh_hd : lookupFd fd st.client_buffers = none :=
            hfresh (fd, nb && ep) (List.mem_cons_self _ _)
          have hfresh_tl : ∀ c ∈ batch_cands r,
              lookupFd c.1 st.client_buffers = none :=
            fun c hc => hfresh c (List.mem_cons_of_mem _ hc)
          cases nb with
          | false =>
              have hred : (accept_loop st (AcceptEvt.conn fd false ep ::
                  r)).st = (accept_loop st r).st := by
                simp [accept_loop]
              rw [hred]
              obtain ⟨ihm, iho⟩ := ih st hnd_tail hfresh_tl
              constructor
              · intro c hc
                rcases List.mem_cons.mp hc with heq | htl
                · subst heq
                  refine ⟨fun htr => (nomatch htr), fun _ => ?_⟩
                  rw [iho fd hfd_ne]
                  exact hfresh_hd
                · exact ihm c htl
              · intro g hg
                exact iho g (fun c hc => hg c (List.mem_cons_of_mem _ hc))
          | true =>
              cases ep with
              | false =>
                  have hred : (accept_loop st (AcceptEvt.conn fd true false
                      :: r)).st =
                      (accept_loop (close_client fd
                        ⟨(fd, List.replicate BUFFER_SIZE 0) ::
                          st.client_buffers, st.fd_mutexes⟩) r).st := by
                    simp [accept_loop]
                  have hB : (close_client fd
                      ⟨(fd, List.replicate BUFFER_SIZE 0) ::
                        st.client_buffers,
                        st.fd_mutexes⟩).client_buffers =
                      eraseFd fd st.client_buffers := by
                    simp [close_client, eraseFd]
                  have hfreshB : ∀ c ∈ batch_cands r,
                      lookupFd c.1 (close_client fd
                        ⟨(fd, List.replicate BUFFER_SIZE 0) ::
                          st.client_buffers,
                          st.fd_mutexes⟩).client_buffers = none := by
                    intro c hc
                    rw [hB, lookupFd_eraseFd_ne
                      (fun h => hfd_ne c hc h.symm)]
                    exact hfresh_tl c hc
                  rw [hred]
                  obtain ⟨ihm, iho⟩ := ih _ hnd_tail hfreshB
                  constructor
                  · intro c hc
                    rcases List.mem_cons.mp hc with heq | htl
                    · subst heq
                      refine ⟨fun htr => (nomatch htr), fun _ => ?_⟩
                      rw [iho fd hfd_ne, hB]
                      exact lookupFd_eraseFd_self st.client_buffers
                    · exact ihm c htl
                  · intro g hg
                    have hgfd : g ≠ fd :=
                      hg (fd, true && false) (List.mem_cons_self _ _)
                    rw [iho g (fun c hc => hg c
                      (List.mem_cons_of_mem _ hc)), hB]
                    exact lookupFd_eraseFd_ne hgfd st.client_buffers
              | true =>
                  have hred : (accept_loop st (AcceptEvt.conn fd true true
                      :: r)).st =
                      (accept_loop ⟨(fd, List.replicate BUFFER_SIZE 0) ::
                        st.client_buffers, st.fd_mutexes⟩ r).st := by
                    simp [accept_loop]
                  have hfreshC : ∀ c ∈ batch_cands r,
                      lookupFd c.1
                        ((⟨(fd, List.replicate BUFFER_SIZE 0) ::
                          st.client_buffers, st.fd_mutexes⟩ :
                            ServerSt).client_buffers) = none := by
                    intro c hc
                    rw [show ((⟨(fd, List.replicate BUFFER_SIZE 0) ::
                        st.client_buffers, st.fd_mutexes⟩ :
                          ServerSt).client_buffers) =
                        (fd, List.replicate BUFFER_SIZE 0) ::
                          st.client_buffers from rfl]
                    rw [lookupFd_cons_ne (hfd_ne c hc)]
                    exact hfresh_tl c hc
                  rw [hred]
                  obtain ⟨ihm, iho⟩ := ih _ hnd_tail hfreshC
                  constructor
                  · intro c hc
                    rcases List.mem_cons.mp hc with heq | htl
                    · subst heq
                      refine ⟨fun _ => ?_, fun hfa => (nomatch hfa)⟩
                      rw [iho fd hfd_ne]
                      exact lookupFd_cons_self
                    · exact ihm c htl
                  · intro g hg
                    have hgfd : ¬ fd = g := fun h =>
                      hg (fd, true && true) (List.mem_cons_self _ _) h.symm
                    rw [iho g (fun c hc => hg c
                      (List.mem_cons_of_mem _ hc))]
                    exact lookupFd_cons_ne hgfd

/-- Claim C8: on one listening-socket readiness notification the acceptor
accepts repeatedly until the queue drains (an EAGAIN result ends the batch
without an error log); each candidate that fails set-nonblocking or epoll
registration is discarded alone — its socket is closed and it holds no
registry entry afterwards — while every successfully set-up candidate in
the same batch gets a fresh zeroed `BUFFER_SIZE` buffer in the registry
and is not closed; handles outside the batch are untouched. -/
theorem c8_accept_batch (evts : List AcceptEvt) (st : ServerSt)
    (hnodup : ((batch_cands evts).map Prod.fst).Nodup)
    (hfresh : ∀ c ∈ batch_cands evts,
      lookupFd c.1 st.client_buffers = none) :
    (accept_loop st evts).closed =
      ((batch_cands evts).filter (fun c => c.2 = false)).map Prod.fst ∧
    (batch_ends_ok evts = true →
      (accept_loop st evts).errLogs = batch_failures evts) ∧
    (∀ c ∈ batch_cands evts,
      (c.2 = true →
        lookupFd c.1 (accept_loop st evts).st.client_buffers =
          some (List.replicate BUFFER_SIZE 0) ∧
        c.1 ∉ (accept_loop st evts).closed) ∧
      (c.2 = false →
        lookupFd c.1 (accept_loop st evts).st.client_buffers = none ∧
        c.1 ∈ (accept_loop st evts).closed)) ∧
    (∀ g, (∀ c ∈ batch_cands evts, g ≠ c.1) →
      lookupFd g (accept_loop st evts).st.client_buffers =
        lookupFd g st.client_buffers) := by
  obtain ⟨ihm, iho⟩ := accept_loop_registry evts st hnodup hfresh
  have hcl := accept_loop_closed evts st
  refine ⟨hcl, accept_loop_errLogs evts st, ?_, iho⟩
  intro c hc
  refine ⟨fun ht => ⟨(ihm c hc).1 ht, ?_⟩, fun hf => ⟨(ihm c hc).2 hf, ?_⟩⟩
  · rw [hcl]
    intro hmem
    obtain ⟨c', hc'mem, hc'eq⟩ := List.mem_map.mp hmem
    have hc'f := List.mem_filter.mp hc'mem
    have hcc : c' = c :=
      List.inj_on_of_nodup_map hnodup hc'f.1 hc hc'eq
    subst hcc
    rw [ht] at hc'f
    simp at hc'f
  · rw [hcl]
    exact List.mem_map_of_mem Prod.fst
      (List.mem_filter.mpr ⟨hc, by simp [hf]⟩)

/-- Claim C8 witness: a batch of four candidates — success, nonblocking
failure, epoll failure, success — ended by EAGAIN. -/
theorem c8_accept_batch_witness :
    ((batch_cands [.conn 4 true true, .conn 5 false true,
        .conn 6 true false, .conn 7 true true, .noMore]).map
        Prod.fst).Nodup ∧
    (∀ c ∈ batch_cands [.conn 4 true true, .conn 5 false true,
        .conn 6 true false, .conn 7 true true, .noMore],
      lookupFd c.1 (⟨[(2, [9])], []⟩ : ServerSt).client_buffers = none) ∧
    ((accept_loop ⟨[(2, [9])], []⟩ [.conn 4 true true, .conn 5 false true,
        .conn 6 true false, .conn 7 true true, .noMore]).closed =
      ((batch_cands [.conn 4 true true, .conn 5 false true,
        .conn 6 true false, .conn 7 true true, .noMore]).filter
          (fun c => c.2 = false)).map Prod.fst ∧
     (batch_ends_ok [.conn 4 true true, .conn 5 false true,
        .conn 6 true false, .conn 7 true true, .noMore] = true →
       (accept_loop ⟨[(2, [9])], []⟩ [.conn 4 true true,
          .conn 5 false true, .conn 6 true false, .conn 7 true true,
          .noMore]).errLogs =
         batch_failures [.conn 4 true true, .conn 5 false true,
           .conn 6 true false, .conn 7 true true, .noMore]) ∧
     (∀ c ∈ batch_cands [.conn 4 true true, .conn 5 false true,
          .conn 6 true false, .conn 7 true true, .noMore],
       (c.2 = true →
         lookupFd c.1 (accept_loop ⟨[(2, [9])], []⟩ [.conn 4 true true,
            .conn 5 false true, .conn 6 true false, .conn 7 true true,
            .noMore]).st.client_buffers =
           some (List.replicate BUFFER_SIZE 0) ∧
         c.1 ∉ (accept_loop ⟨[(2, [9])], []⟩ [.conn 4 true true,
            .conn 5 false true, .conn 6 true false, .conn 7 true true,
            .noMore]).closed) ∧
       (c.2 = false →
         lookupFd c.1 (accept_loop ⟨[(2, [9])], []⟩ [.conn 4 true true,
            .conn 5 false true, .conn 6 true false, .conn 7 true true,
            .noMore]).st.client_buffers = none ∧
         c.1 ∈ (accept_loop ⟨[(2, [9])], []⟩ [.conn 4 true true,
            .conn 5 false true, .conn 6 true false, .conn 7 true true,
            .noMore]).closed)) ∧
     (∀ g, (∀ c ∈ batch_cands [.conn 4 true true, .conn 5 false true,
          .conn 6 true false, .conn 7 true true, .noMore], g ≠ c.1) →
       lookupFd g (accept_loop ⟨[(2, [9])], []⟩ [.conn 4 true true,
          .conn 5 false true, .conn 6 true false, .conn 7 true true,
          .noMore]).st.client_buffers =
         lookupFd g (⟨[(2, [9])], []⟩ : ServerSt).client_buffers)) :=
  ⟨by decide, by decide,
   c8_accept_batch [.conn 4 true true, .conn 5 false true,
      .conn 6 true false, .conn 7 true true, .noMore] ⟨[(2, [9])], []⟩
     (by decide) (by decide)⟩
